import Mathlib

/-!
# Caro (Gomoku) client game logic and user rating updates: a shallow embedding

This development embeds the game logic of the `caro-testing` repository:

* the client game reducer, win detection and move validation from
  `client/src/middleware.ts` (`createEmptyBoard`, `checkWin`, `gameReducer`,
  `makeMove`);
* the shared game constants (`GAME_CONFIG`);
* the server-side user statistics update from `UserService`
  (`updateStats`, `updateElo`).

Modelling decisions:

* A cell value `'X' | 'O' | null` becomes `Option PlayerSymbol`.
* The board, a 16×16 nested array in the source, is modelled as a total
  function `Int → Int → CellValue`.  All board reads performed by the source
  on in-range indices agree with this model; the source never successfully
  reads or writes out of range (its scans are bounds-guarded, and `makeMove`
  bounds-checks before dispatching), so theorems about in-range behaviour are
  faithful.  Statements about the reducer restrict `MAKE_MOVE` payloads to
  in-range positions wherever the distinction could matter.
* The `while` scans of `checkWin` become a fuel recursion; fuel 16 (the board
  size) dominates the length of any scan the source can perform, since each
  step moves one coordinate monotonically and the in-bounds guard confines
  coordinates to `[0, 16)`.
-/

inductive PlayerSymbol
  | X
  | O
deriving DecidableEq, Repr

abbrev CellValue := Option PlayerSymbol

/-- Client game status (`client/src/types`): `'waiting' | 'playing' | 'finished' | 'draw'`. -/
inductive GameStatus
  | waiting
  | playing
  | finished
  | draw
deriving DecidableEq, Repr

/-- Server game result tags accepted by `UserService.updateStats`. -/
inductive GameResult
  | win
  | loss
  | draw
deriving DecidableEq, Repr

-- Shared game constants (`GAME_CONFIG` in the shared types / client constants).
namespace GAME_CONFIG

def BOARD_SIZE : Nat := 16

def WIN_CONDITION : Nat := 5

def STARTING_ELO : Int := 1000

def ELO_WIN_POINTS : Int := 3

def ELO_DRAW_POINTS : Int := 1

def ELO_LOSE_POINTS : Int := 0

end GAME_CONFIG

/-- Positions carry raw (possibly out-of-range) integer coordinates, as in the
source where `row`/`col` are unchecked `number`s. -/
structure Position where
  row : Int
  col : Int
deriving DecidableEq, Repr

inductive Direction
  | horizontal
  | vertical
  | diagonalDown
  | diagonalUp
deriving DecidableEq, Repr

/-- `WinningLine` of the client state; the source field `end` is a Lean keyword
and is rendered `stop`. -/
structure WinningLine where
  start : Position
  stop : Position
  direction : Direction
deriving DecidableEq, Repr

/-- The board: total function model of the 16×16 nested array. -/
abbrev Board := Int → Int → CellValue

/-- `createEmptyBoard` : every cell `null`. -/
def createEmptyBoard : Board := fun _ _ => none

/-- The single-cell update performed by the `MAKE_MOVE` case of the reducer
(`board.map((r, i) => i === row ? r.map((cell, j) => j === col ? v : cell) : [...r])`). -/
def setCell (b : Board) (row col : Int) (v : CellValue) : Board :=
  fun i j => if i = row ∧ j = col then v else b i j

/-- The in-range test `0 <= r < BOARD_SIZE && 0 <= c < BOARD_SIZE` used by the
scan loops of `checkWin` and (in negated form) by `makeMove`. -/
def inRange (r c : Int) : Prop :=
  0 ≤ r ∧ r < (GAME_CONFIG.BOARD_SIZE : Int) ∧ 0 ≤ c ∧ c < (GAME_CONFIG.BOARD_SIZE : Int)

instance (r c : Int) : Decidable (inRange r c) := by
  unfold inRange; infer_instance

/-- One directional `while` loop of `checkWin`: starting at `(r, c)`, while the
cell is in range and holds the player's mark, increment the count and record the
cell as the new run endpoint, then step by `(dx, dy)`.  `acc` is
`(count, lastRow, lastCol)`; fuel 16 dominates any run the 16×16 board allows. -/
def scanLoop (b : Board) (pl : PlayerSymbol) (dx dy : Int) :
    Nat → Int → Int → Nat × Int × Int → Nat × Int × Int
  | 0, _, _, acc => acc
  | fuel + 1, r, c, acc =>
    if inRange r c ∧ b r c = some pl then
      scanLoop b pl dx dy fuel (r + dx) (c + dy) (acc.1 + 1, r, c)
    else acc

/-- The `(dx, dy)` attached to each orientation in `checkWin`'s direction table. -/
def dirDelta : Direction → Int × Int
  | .horizontal => (0, 1)
  | .vertical => (1, 0)
  | .diagonalDown => (1, 1)
  | .diagonalUp => (1, -1)

/-- One iteration of `checkWin`'s direction loop: count contiguous same-mark
cells through `pos` (the placed cell counts 1, then the forward scan extends
`end` and the backward scan extends `start`), and return the line when the
count reaches `WIN_CONDITION`. -/
def checkDir (b : Board) (pos : Position) (pl : PlayerSymbol) (d : Direction) :
    Option WinningLine :=
  let dd := dirDelta d
  let fwd := scanLoop b pl dd.1 dd.2 16 (pos.row + dd.1) (pos.col + dd.2)
    (1, pos.row, pos.col)
  let bwd := scanLoop b pl (-dd.1) (-dd.2) 16 (pos.row - dd.1) (pos.col - dd.2)
    (fwd.1, pos.row, pos.col)
  if GAME_CONFIG.WIN_CONDITION ≤ bwd.1 then
    some { start := ⟨bwd.2.1, bwd.2.2⟩, stop := ⟨fwd.2.1, fwd.2.2⟩, direction := d }
  else none

/-- The fixed orientation order of `checkWin`'s direction table. -/
def directions : List Direction :=
  [.horizontal, .vertical, .diagonalDown, .diagonalUp]

/-- `checkWin(board, position, player)` : return the line of the first
orientation, in the order of `directions`, whose contiguous count through
`position` reaches `WIN_CONDITION`; `null` if none does. -/
def checkWin (b : Board) (pos : Position) (pl : PlayerSymbol) : Option WinningLine :=
  directions.findSome? (checkDir b pos pl)

/-- Client `GameState` of `middleware.ts`. -/
structure GameState where
  board : Board
  currentPlayer : PlayerSymbol
  status : GameStatus
  winner : Option PlayerSymbol
  winningLine : Option WinningLine
  lastMove : Option Position
  moveCount : Nat

/-- `initialState` of `middleware.ts`. -/
def initialState : GameState :=
  { board := createEmptyBoard
    currentPlayer := .X
    status := .waiting
    winner := none
    winningLine := none
    lastMove := none
    moveCount := 0 }

/-- `GameAction` of `middleware.ts`. -/
inductive GameAction
  | MAKE_MOVE (payload : Position)
  | SET_WINNER (winner : PlayerSymbol) (winningLine : Option WinningLine)
  | RESET_GAME
  | SET_STATUS (payload : GameStatus)
  | SET_BOARD (payload : Board)

/-- `gameReducer` of `middleware.ts`.  The `MAKE_MOVE` guard is the source's
`state.status !== 'playing' || state.board[row][col] !== null || state.winner !== null`;
on the total-function board an out-of-range read yields `none`, whereas in the
source an out-of-range read either faults (bad row) or reads `undefined ≠ null`
(bad column) — in both cases producing no updated state — so statements about
`MAKE_MOVE` carry in-range hypotheses wherever the branch taken could differ. -/
def gameReducer (state : GameState) (action : GameAction) : GameState :=
  match action with
  | .MAKE_MOVE payload =>
    let row := payload.row
    let col := payload.col
    if state.status ≠ .playing ∨ state.board row col ≠ none ∨ state.winner ≠ none then
      state
    else
      let newBoard := setCell state.board row col (some state.currentPlayer)
      let winningLine := checkWin newBoard payload state.currentPlayer
      let winner : Option PlayerSymbol :=
        if winningLine.isSome then some state.currentPlayer else none
      let newMoveCount := state.moveCount + 1
      let isBoardFull := newMoveCount = GAME_CONFIG.BOARD_SIZE * GAME_CONFIG.BOARD_SIZE
      let newStatus : GameStatus :=
        if winner.isSome then .finished else if isBoardFull then .draw else .playing
      { state with
          board := newBoard
          currentPlayer := if state.currentPlayer = .X then .O else .X
          lastMove := some payload
          moveCount := newMoveCount
          winner := winner
          winningLine := winningLine
          status := newStatus }
  | .SET_WINNER w l =>
    { state with winner := some w, winningLine := l, status := .finished }
  | .RESET_GAME =>
    { initialState with board := createEmptyBoard }
  | .SET_STATUS payload =>
    { state with status := payload }
  | .SET_BOARD payload =>
    { state with board := payload }

/-- `makeMove` of the `GameProvider`: reject out-of-range positions, then
occupied cells, returning `false`; otherwise dispatch `MAKE_MOVE` and return
`true`.  The returned state is the dispatch result (`state` unchanged when the
validation fails, since no action is dispatched). -/
def makeMove (state : GameState) (position : Position) : Bool × GameState :=
  if position.row < 0 ∨ (GAME_CONFIG.BOARD_SIZE : Int) ≤ position.row ∨
      position.col < 0 ∨ (GAME_CONFIG.BOARD_SIZE : Int) ≤ position.col then
    (false, state)
  else if state.board position.row position.col ≠ none then
    (false, state)
  else
    (true, gameReducer state (.MAKE_MOVE position))

/-- The stats fields of the persisted `User` entity (`elo` defaults to
`STARTING_ELO = 1000`); identity, credential and timestamp columns are not
touched by the rating logic and are omitted. -/
structure User where
  elo : Int
  wins : Nat
  losses : Nat
  draws : Nat
deriving DecidableEq, Repr

/-- `UserService.updateElo`: add `eloChange` to the stored rating. -/
def updateElo (user : User) (eloChange : Int) : User :=
  { user with elo := user.elo + eloChange }

/-- `UserService.updateStats`: `win → wins+1, elo+3`; `loss → losses+1`;
`draw → draws+1, elo+1`. -/
def updateStats (user : User) (result : GameResult) : User :=
  match result with
  | .win => { user with wins := user.wins + 1, elo := user.elo + 3 }
  | .loss => { user with losses := user.losses + 1 }
  | .draw => { user with draws := user.draws + 1, elo := user.elo + 1 }

/-- The state in which play begins: the provider's `initialState` once the
status has been set to `'playing'` (empty board, `X` to move). -/
def startState : GameState :=
  { initialState with status := .playing }

/-- Run a whole move sequence through the reducer (each move dispatched as a
`MAKE_MOVE` action). -/
def applyMoves (s : GameState) (moves : List Position) : GameState :=
  moves.foldl (fun st p => gameReducer st (.MAKE_MOVE p)) s

/-- The `MAKE_MOVE` guard taken positively: the move is actually applied. -/
def moveAccepted (s : GameState) (p : Position) : Prop :=
  s.status = .playing ∧ s.board p.row p.col = none ∧ s.winner = none

instance (s : GameState) (p : Position) : Decidable (moveAccepted s p) := by
  unfold moveAccepted; infer_instance

/-- The move log of a game: the accepted moves of the sequence, each with the
mark that placed it, in insertion order. -/
def recordLog : GameState → List Position → List (Position × PlayerSymbol)
  | _, [] => []
  | s, p :: ps =>
    if moveAccepted s p then
      (p, s.currentPlayer) :: recordLog (gameReducer s (.MAKE_MOVE p)) ps
    else
      recordLog (gameReducer s (.MAKE_MOVE p)) ps

/-- Replay a move log onto a board: apply each logged placement in order. -/
def replayBoard (b : Board) (log : List (Position × PlayerSymbol)) : Board :=
  log.foldl (fun bd m => setCell bd m.1.row m.1.col (some m.2)) b

/-- The reducer actions whose dispatch the client can actually produce while
keeping the board/move-log correspondence: `MAKE_MOVE` only with an in-range
payload (the dispatch site `makeMove` bounds-checks first; an out-of-range
payload would fault or no-op in the source), and no `SET_BOARD` (which installs
an arbitrary foreign board). -/
def okAction : GameAction → Prop
  | .MAKE_MOVE p => inRange p.row p.col
  | .SET_BOARD _ => False
  | _ => True

/-- Row 7 reading `O X X X X X O` at columns 0..6 — the two-end-blocked
five-run of the README (`OXXXXXO`). -/
def blockedBoard : Board := fun r c =>
  if r = 7 ∧ (c = 0 ∨ c = 6) then some .O
  else if r = 7 ∧ 1 ≤ c ∧ c ≤ 5 then some .X
  else none

/-- Four `X` marks at `(0,0)..(0,3)`: one placement away from a horizontal win. -/
def fourInRowBoard : Board := fun r c =>
  if r = 0 ∧ 0 ≤ c ∧ c ≤ 3 then some .X else none

/-- A playing-phase state one `X` placement away from a horizontal win. -/
def nearWinState : GameState :=
  { board := fourInRowBoard
    currentPlayer := .X
    status := .playing
    winner := none
    winningLine := none
    lastMove := some ⟨0, 3⟩
    moveCount := 8 }

/-- A state that has already recorded a winner (`SET_WINNER X` on the initial
state): status `finished`, winner `X`. -/
def finishedState : GameState :=
  gameReducer initialState (.SET_WINNER .X none)

/-- A reachable state whose status is `'playing'` while a winner is recorded:
`SET_WINNER X` followed by `SET_STATUS 'playing'`. -/
def playingWithWinnerState : GameState :=
  gameReducer finishedState (.SET_STATUS .playing)

/-! ## Basic facts about the `MAKE_MOVE` branch of the reducer -/

lemma gameReducer_MAKE_MOVE_rejected (s : GameState) (p : Position)
    (h : s.status ≠ .playing ∨ s.board p.row p.col ≠ none ∨ s.winner ≠ none) :
    gameReducer s (.MAKE_MOVE p) = s := by
  simp only [gameReducer]
  rw [if_pos h]

lemma gameReducer_MAKE_MOVE_guard_false (s : GameState) (p : Position)
    (h1 : s.status = .playing) (h2 : s.board p.row p.col = none)
    (h3 : s.winner = none) :
    ¬ (s.status ≠ GameStatus.playing ∨ s.board p.row p.col ≠ none ∨ s.winner ≠ none) := by
  simp [h1, h2, h3]

lemma gameReducer_MAKE_MOVE_ok_win (s : GameState) (p : Position) (l : WinningLine)
    (h1 : s.status = .playing) (h2 : s.board p.row p.col = none)
    (h3 : s.winner = none)
    (hl : checkWin (setCell s.board p.row p.col (some s.currentPlayer)) p
      s.currentPlayer = some l) :
    gameReducer s (.MAKE_MOVE p) =
      { s with
          board := setCell s.board p.row p.col (some s.currentPlayer)
          currentPlayer := if s.currentPlayer = .X then .O else .X
          lastMove := some p
          moveCount := s.moveCount + 1
          winner := some s.currentPlayer
          winningLine := some l
          status := .finished } := by
  simp only [gameReducer]
  rw [if_neg (gameReducer_MAKE_MOVE_guard_false s p h1 h2 h3)]
  simp [hl]

lemma gameReducer_MAKE_MOVE_ok_nowin (s : GameState) (p : Position)
    (h1 : s.status = .playing) (h2 : s.board p.row p.col = none)
    (h3 : s.winner = none)
    (hl : checkWin (setCell s.board p.row p.col (some s.currentPlayer)) p
      s.currentPlayer = none) :
    gameReducer s (.MAKE_MOVE p) =
      { s with
          board := setCell s.board p.row p.col (some s.currentPlayer)
          currentPlayer := if s.currentPlayer = .X then .O else .X
          lastMove := some p
          moveCount := s.moveCount + 1
          winner := none
          winningLine := none
          status := if s.moveCount + 1 = GAME_CONFIG.BOARD_SIZE * GAME_CONFIG.BOARD_SIZE
            then .draw else .playing } := by
  simp only [gameReducer]
  rw [if_neg (gameReducer_MAKE_MOVE_guard_false s p h1 h2 h3)]
  simp [hl]

/-! ## First-orientation-wins: `findSome?` along a list is `find?` then `bind` -/

lemma findSome_eq_find_bind {α β : Type} (f : α → Option β) :
    ∀ l : List α, l.findSome? f = (l.find? fun a => (f a).isSome).bind f
  | [] => rfl
  | a :: l => by
    cases h : f a with
    | none =>
      simp [List.findSome?_cons, List.find?_cons, h, findSome_eq_find_bind f l]
    | some b =>
      simp [List.findSome?_cons, List.find?_cons, h]

/-! ## Counting the non-empty cells of the 16×16 window -/

/-- The number of non-`null` cells of the board (over the 16×16 grid the source
arrays actually hold). -/
def countNonNull (b : Board) : Nat :=
  ((Finset.range GAME_CONFIG.BOARD_SIZE ×ˢ Finset.range GAME_CONFIG.BOARD_SIZE).filter
    (fun rc => b (rc.1 : Int) (rc.2 : Int) ≠ none)).card

lemma countNonNull_empty : countNonNull createEmptyBoard = 0 := by
  simp [countNonNull, createEmptyBoard]

lemma countNonNull_setCell (b : Board) (row col : Int) (pl : PlayerSymbol)
    (hr : inRange row col) (he : b row col = none) :
    countNonNull (setCell b row col (some pl)) = countNonNull b + 1 := by
  obtain ⟨h0, h1, h2, h3⟩ := hr
  have hB : (GAME_CONFIG.BOARD_SIZE : Int) = 16 := by norm_num [GAME_CONFIG.BOARD_SIZE]
  rw [hB] at h1 h3
  have hmem : (row.toNat, col.toNat) ∈
      Finset.range GAME_CONFIG.BOARD_SIZE ×ˢ Finset.range GAME_CONFIG.BOARD_SIZE := by
    simp only [Finset.mem_product, Finset.mem_range, GAME_CONFIG.BOARD_SIZE]
    omega
  have key : ((Finset.range GAME_CONFIG.BOARD_SIZE ×ˢ Finset.range GAME_CONFIG.BOARD_SIZE).filter
      (fun rc => setCell b row col (some pl) (rc.1 : Int) (rc.2 : Int) ≠ none))
      = insert (row.toNat, col.toNat)
        ((Finset.range GAME_CONFIG.BOARD_SIZE ×ˢ Finset.range GAME_CONFIG.BOARD_SIZE).filter
          (fun rc => b (rc.1 : Int) (rc.2 : Int) ≠ none)) := by
    ext rc
    simp only [Finset.mem_filter, Finset.mem_insert, setCell]
    constructor
    · rintro ⟨hm, hne⟩
      by_cases hc : (rc.1 : Int) = row ∧ (rc.2 : Int) = col
      · left
        have : rc.1 = row.toNat := by omega
        have : rc.2 = col.toNat := by omega
        cases rc
        simp_all
      · right
        rw [if_neg hc] at hne
        exact ⟨hm, hne⟩
    · rintro (rfl | ⟨hm, hne⟩)
      · refine ⟨hmem, ?_⟩
        have : ((row.toNat : Int) = row ∧ (col.toNat : Int) = col) := by omega
        rw [if_pos this]
        simp
      · refine ⟨hm, ?_⟩
        by_cases hc : (rc.1 : Int) = row ∧ (rc.2 : Int) = col
        · exfalso
          apply hne
          rw [hc.1, hc.2, he]
        · rw [if_neg hc]
          exact hne
  rw [countNonNull, key, Finset.card_insert_of_not_mem, countNonNull]
  simp only [Finset.mem_filter, not_and, Decidable.not_not]
  intro _
  have : ((row.toNat : Int) = row ∧ (col.toNat : Int) = col) := by omega
  rw [this.1, this.2, he]

lemma gameReducer_MAKE_MOVE_not_accepted (s : GameState) (p : Position)
    (h : ¬ moveAccepted s p) :
    gameReducer s (.MAKE_MOVE p) = s := by
  apply gameReducer_MAKE_MOVE_rejected
  unfold moveAccepted at h
  tauto

lemma gameReducer_MAKE_MOVE_board (s : GameState) (p : Position)
    (h : moveAccepted s p) :
    (gameReducer s (.MAKE_MOVE p)).board
      = setCell s.board p.row p.col (some s.currentPlayer) := by
  obtain ⟨h1, h2, h3⟩ := h
  cases hl : checkWin (setCell s.board p.row p.col (some s.currentPlayer)) p
      s.currentPlayer with
  | none => rw [gameReducer_MAKE_MOVE_ok_nowin s p h1 h2 h3 hl]
  | some l => rw [gameReducer_MAKE_MOVE_ok_win s p l h1 h2 h3 hl]

lemma gameReducer_MAKE_MOVE_moveCount (s : GameState) (p : Position)
    (h : moveAccepted s p) :
    (gameReducer s (.MAKE_MOVE p)).moveCount = s.moveCount + 1 := by
  obtain ⟨h1, h2, h3⟩ := h
  cases hl : checkWin (setCell s.board p.row p.col (some s.currentPlayer)) p
      s.currentPlayer with
  | none => rw [gameReducer_MAKE_MOVE_ok_nowin s p h1 h2 h3 hl]
  | some l => rw [gameReducer_MAKE_MOVE_ok_win s p l h1 h2 h3 hl]

lemma gameReducer_MAKE_MOVE_currentPlayer (s : GameState) (p : Position)
    (h : moveAccepted s p) :
    (gameReducer s (.MAKE_MOVE p)).currentPlayer
      = (if s.currentPlayer = .X then .O else .X) := by
  obtain ⟨h1, h2, h3⟩ := h
  cases hl : checkWin (setCell s.board p.row p.col (some s.currentPlayer)) p
      s.currentPlayer with
  | none => rw [gameReducer_MAKE_MOVE_ok_nowin s p h1 h2 h3 hl]
  | some l => rw [gameReducer_MAKE_MOVE_ok_win s p l h1 h2 h3 hl]

/-! ## Round trip between a game and its recorded move log -/

lemma applyMoves_board_eq_replay (moves : List Position) :
    ∀ s : GameState, (applyMoves s moves).board = replayBoard s.board (recordLog s moves) := by
  induction moves with
  | nil => intro s; rfl
  | cons p ps ih =>
    intro s
    show (applyMoves (gameReducer s (.MAKE_MOVE p)) ps).board
      = replayBoard s.board (recordLog s (p :: ps))
    by_cases hacc : moveAccepted s p
    · rw [recordLog, if_pos hacc]
      rw [ih (gameReducer s (.MAKE_MOVE p))]
      rw [gameReducer_MAKE_MOVE_board s p hacc]
      rfl
    · rw [recordLog, if_neg hacc]
      rw [ih (gameReducer s (.MAKE_MOVE p))]
      rw [gameReducer_MAKE_MOVE_not_accepted s p hacc]

/-! ## The cell-count invariant -/

lemma countNonNull_step (s : GameState) (a : GameAction) (ha : okAction a)
    (hinv : countNonNull s.board = s.moveCount) :
    countNonNull (gameReducer s a).board = (gameReducer s a).moveCount := by
  cases a with
  | MAKE_MOVE p =>
    by_cases hacc : moveAccepted s p
    · rw [gameReducer_MAKE_MOVE_board s p hacc, gameReducer_MAKE_MOVE_moveCount s p hacc,
        countNonNull_setCell s.board p.row p.col s.currentPlayer ha hacc.2.1, hinv]
    · rw [gameReducer_MAKE_MOVE_not_accepted s p hacc]
      exact hinv
  | SET_WINNER w l => exact hinv
  | RESET_GAME =>
    show countNonNull createEmptyBoard = 0
    exact countNonNull_empty
  | SET_STATUS st => exact hinv
  | SET_BOARD b => exact ha.elim

lemma countNonNull_foldl (acts : List GameAction) :
    ∀ s : GameState, (∀ a ∈ acts, okAction a) → countNonNull s.board = s.moveCount →
      countNonNull (acts.foldl gameReducer s).board = (acts.foldl gameReducer s).moveCount := by
  induction acts with
  | nil => intro s _ hinv; exact hinv
  | cons a as ih =>
    intro s hok hinv
    exact ih (gameReducer s a) (fun x hx => hok x (List.mem_cons_of_mem a hx))
      (countNonNull_step s a (hok a (List.mem_cons_self a as)) hinv)

/-! ## Claims -/

/-- Claim C1: the claim says `checkWin` excludes exactly-5 runs flanked on both
open ends by the opposing mark, and in particular returns no line for the row
`O,A,A,A,A,A,O` at columns 0..6.  The implemented `checkWin` declares a win for
any contiguous count ≥ 5 with no flanking check at all: on the README's blocked
pattern `OXXXXXO` (row 7, columns 0..6), with the last `X` placed at `(7,5)`,
it returns the horizontal line `(7,1)–(7,5)` — contradicting the repository's
own documentation (`README.md`: such patterns "are NOT considered wins") and
the declared `BLOCKED_PATTERNS` of the shared types. -/
theorem checkWin_blocked_five_run_returns_line :
    checkWin blockedBoard ⟨7, 5⟩ .X
      = some ⟨⟨7, 1⟩, ⟨7, 5⟩, .horizontal⟩ := by decide

/-- Claim C2: the rating update is the fixed-point scheme — a decisive result
adds exactly `+3` to the winner and `+0` to the loser, a draw adds `+1` to
each; two players at Elo 1000 end at 1003/1000 after a decisive result and at
1001/1001 after a draw. -/
theorem updateStats_fixed_point_scheme :
    (∀ winner loser : User,
      (updateStats winner .win).elo = winner.elo + GAME_CONFIG.ELO_WIN_POINTS ∧
      (updateStats loser .loss).elo = loser.elo + GAME_CONFIG.ELO_LOSE_POINTS) ∧
    (∀ u : User, (updateStats u .draw).elo = u.elo + GAME_CONFIG.ELO_DRAW_POINTS) ∧
    (updateStats ⟨1000, 0, 0, 0⟩ .win).elo = 1003 ∧
    (updateStats ⟨1000, 0, 0, 0⟩ .loss).elo = 1000 ∧
    (updateStats ⟨1000, 0, 0, 0⟩ .draw).elo = 1001 := by
  refine ⟨fun w l => ⟨?_, ?_⟩, fun u => ?_, by decide, by decide, by decide⟩ <;>
    simp [updateStats, GAME_CONFIG.ELO_WIN_POINTS, GAME_CONFIG.ELO_LOSE_POINTS,
      GAME_CONFIG.ELO_DRAW_POINTS]

/-- Claim C7: when more than one orientation qualifies for the same last move,
`checkWin` returns the line of the first qualifying orientation in the fixed
order horizontal, vertical, diagonal-down, diagonal-up: it equals `find?` of
the first qualifying direction along `directions` followed by that direction's
line, and `directions` is exactly that fixed order. -/
theorem checkWin_first_orientation_in_fixed_order :
    (∀ (b : Board) (pos : Position) (pl : PlayerSymbol),
      checkWin b pos pl
        = (directions.find? fun d => (checkDir b pos pl d).isSome).bind
            (checkDir b pos pl)) ∧
    directions = [.horizontal, .vertical, .diagonalDown, .diagonalUp] :=
  ⟨fun b pos pl => findSome_eq_find_bind (checkDir b pos pl) directions, rfl⟩

/-- Claim C10: a player's rating never decreases through `updateStats`: `+3`
on a win, `+1` on a draw, unchanged on a loss, hence the new Elo is always at
least the previous Elo. -/
theorem updateStats_never_decreases_elo :
    ∀ (u : User) (r : GameResult),
      u.elo ≤ (updateStats u r).elo ∧
      (updateStats u .win).elo = u.elo + 3 ∧
      (updateStats u .draw).elo = u.elo + 1 ∧
      (updateStats u .loss).elo = u.elo := by
  intro u r
  refine ⟨?_, rfl, rfl, rfl⟩
  cases r <;> simp [updateStats]

/-- Claim C3 counterexample: a reachable state (`SET_WINNER X` then
`SET_STATUS 'playing'`) is in the playing phase with an in-range empty target,
yet `makeMove` reports success (`true`) while the dispatched `MAKE_MOVE` is
rejected by the reducer's `winner !== null` guard, so the cell does not read as
the placed mark.  The claim's success branch therefore fails as stated. -/
theorem makeMove_playing_with_winner_cex :
    playingWithWinnerState.status = .playing ∧
    inRange (0 : Int) (0 : Int) ∧
    playingWithWinnerState.board 0 0 = none ∧
    (makeMove playingWithWinnerState ⟨0, 0⟩).1 = true ∧
    (makeMove playingWithWinnerState ⟨0, 0⟩).2.board 0 0 = none := by
  refine ⟨rfl, by decide, rfl, by decide, by decide⟩

/-- Claim C3 (amended): in the playing phase **with no winner recorded** (the
reducer's `MAKE_MOVE` guard also requires `winner === null`), an in-range move
on an empty cell succeeds and the cell thereafter reads as the placed mark; an
out-of-range or occupied target fails (`makeMove` returns `false`) and leaves
the state, in particular the board, unchanged. -/
theorem makeMove_place_spec (s : GameState) (p : Position) :
    (s.status = .playing → s.winner = none → inRange p.row p.col →
      s.board p.row p.col = none →
      (makeMove s p).1 = true ∧
      (makeMove s p).2.board p.row p.col = some s.currentPlayer) ∧
    ((¬ inRange p.row p.col ∨ s.board p.row p.col ≠ none) →
      makeMove s p = (false, s)) := by
  constructor
  · intro h1 h3 hr h2
    have hguard : ¬ (p.row < 0 ∨ (GAME_CONFIG.BOARD_SIZE : Int) ≤ p.row ∨
        p.col < 0 ∨ (GAME_CONFIG.BOARD_SIZE : Int) ≤ p.col) := by
      obtain ⟨a, b, c, d⟩ := hr
      push_neg
      omega
    unfold makeMove
    rw [if_neg hguard, if_neg (by simp [h2])]
    refine ⟨rfl, ?_⟩
    show (gameReducer s (.MAKE_MOVE p)).board p.row p.col = some s.currentPlayer
    rw [gameReducer_MAKE_MOVE_board s p ⟨h1, h2, h3⟩]
    simp [setCell]
  · intro h
    unfold makeMove
    by_cases hout : p.row < 0 ∨ (GAME_CONFIG.BOARD_SIZE : Int) ≤ p.row ∨
        p.col < 0 ∨ (GAME_CONFIG.BOARD_SIZE : Int) ≤ p.col
    · rw [if_pos hout]
    · rcases h with hnr | hocc
      · exfalso
        apply hnr
        unfold inRange
        push_neg at hout
        omega
      · rw [if_neg hout, if_pos hocc]

/-- Claim C3 witness: from the fresh playing state, the in-range move `(0,0)`
on the empty board succeeds and the cell reads `X`; the out-of-range move
`(-1,0)` fails and returns the state unchanged. -/
theorem makeMove_place_spec_witness :
    ((makeMove startState ⟨0, 0⟩).1 = true ∧
      (makeMove startState ⟨0, 0⟩).2.board 0 0 = some startState.currentPlayer) ∧
    makeMove startState ⟨-1, 0⟩ = (false, startState) :=
  ⟨(makeMove_place_spec startState ⟨0, 0⟩).1 rfl rfl (by decide) rfl,
    (makeMove_place_spec startState ⟨-1, 0⟩).2 (Or.inl (by decide))⟩

/-- Claim C4: replaying a game's full move sequence from the empty board
through the move-application function (`setCell`, the reducer's own placement)
deterministically reproduces the final board: for every move sequence played
from the fresh playing state, folding the recorded move log back over the
empty board yields exactly the board of the final state. -/
theorem replay_log_reproduces_final_board :
    ∀ moves : List Position,
      (applyMoves startState moves).board
        = replayBoard createEmptyBoard (recordLog startState moves) :=
  fun moves => applyMoves_board_eq_replay moves startState

/-- Claim C5 counterexample: a second termination trigger is **not** a no-op:
on a state that is already terminal (`winner = X`, status `finished`), a second
`SET_WINNER` overwrites the recorded winner with `O`. -/
theorem second_SET_WINNER_overwrites_winner :
    finishedState.winner = some .X ∧
    finishedState.status = .finished ∧
    (gameReducer finishedState (.SET_WINNER .O none)).winner = some .O ∧
    (gameReducer finishedState (.SET_WINNER .O none)).winner ≠ finishedState.winner := by
  refine ⟨by decide, by decide, by decide, by decide⟩

/-- Claim C5 (amended): once a state has a non-null winner or a non-`'playing'`
status (in particular any terminal status), every further **move submission**
(`MAKE_MOVE`) is a no-op that leaves the state unchanged; termination triggers
themselves (`SET_WINNER`) are not guarded and can overwrite the winner. -/
theorem make_move_noop_after_terminal (s : GameState) (p : Position)
    (h : s.winner ≠ none ∨ s.status ≠ .playing) :
    gameReducer s (.MAKE_MOVE p) = s := by
  apply gameReducer_MAKE_MOVE_rejected
  tauto

/-- Claim C5 witness: on the finished state with winner `X`, a further move at
`(0,0)` leaves the state unchanged. -/
theorem make_move_noop_after_terminal_witness :
    gameReducer finishedState (.MAKE_MOVE ⟨0, 0⟩) = finishedState :=
  make_move_noop_after_terminal finishedState ⟨0, 0⟩ (Or.inl (by decide))

/-- Claim C6: on a successful placement, the game is a draw exactly when the
move produces no winning line and the new move count equals
`BOARD_SIZE * BOARD_SIZE = 256` (the reducer's board-full test is precisely
`moveCount + 1 == 256`); a winning placement instead finishes the game with
the mover as winner; the move count always advances by one. -/
theorem make_move_win_draw_resolution (s : GameState) (p : Position)
    (h1 : s.status = .playing) (h2 : s.board p.row p.col = none)
    (h3 : s.winner = none) :
    ((gameReducer s (.MAKE_MOVE p)).status = .draw ↔
      (checkWin (setCell s.board p.row p.col (some s.currentPlayer)) p
          s.currentPlayer = none ∧
        s.moveCount + 1 = GAME_CONFIG.BOARD_SIZE * GAME_CONFIG.BOARD_SIZE)) ∧
    (∀ l, checkWin (setCell s.board p.row p.col (some s.currentPlayer)) p
        s.currentPlayer = some l →
      (gameReducer s (.MAKE_MOVE p)).status = .finished ∧
      (gameReducer s (.MAKE_MOVE p)).winner = some s.currentPlayer) ∧
    (checkWin (setCell s.board p.row p.col (some s.currentPlayer)) p
        s.currentPlayer = none →
      (gameReducer s (.MAKE_MOVE p)).winner = none) ∧
    (gameReducer s (.MAKE_MOVE p)).moveCount = s.moveCount + 1 := by
  cases hl : checkWin (setCell s.board p.row p.col (some s.currentPlayer)) p
      s.currentPlayer with
  | none =>
    rw [gameReducer_MAKE_MOVE_ok_nowin s p h1 h2 h3 hl]
    refine ⟨?_, ?_, fun _ => rfl, rfl⟩
    · by_cases hfull :
        s.moveCount + 1 = GAME_CONFIG.BOARD_SIZE * GAME_CONFIG.BOARD_SIZE
      · simp [hfull]
      · simp [hfull]
    · intro l hll
      cases hll
  | some l =>
    rw [gameReducer_MAKE_MOVE_ok_win s p l h1 h2 h3 hl]
    refine ⟨?_, fun l2 _ => ⟨rfl, rfl⟩, ?_, rfl⟩
    · simp
    · intro hll
      cases hll

/-- Claim C6 witness: the first move of a fresh game at `(0,0)` instantiates
the resolution: it is not a draw (the board is far from full), records no
winner when no line exists, and advances the move count to 1. -/
theorem make_move_win_draw_resolution_witness :
    ((gameReducer startState (.MAKE_MOVE ⟨0, 0⟩)).status = .draw ↔
      (checkWin (setCell startState.board (0 : Int) (0 : Int)
          (some startState.currentPlayer)) ⟨0, 0⟩ startState.currentPlayer = none ∧
        startState.moveCount + 1 = GAME_CONFIG.BOARD_SIZE * GAME_CONFIG.BOARD_SIZE)) ∧
    (∀ l, checkWin (setCell startState.board (0 : Int) (0 : Int)
        (some startState.currentPlayer)) ⟨0, 0⟩ startState.currentPlayer = some l →
      (gameReducer startState (.MAKE_MOVE ⟨0, 0⟩)).status = .finished ∧
      (gameReducer startState (.MAKE_MOVE ⟨0, 0⟩)).winner
        = some startState.currentPlayer) ∧
    (checkWin (setCell startState.board (0 : Int) (0 : Int)
        (some startState.currentPlayer)) ⟨0, 0⟩ startState.currentPlayer = none →
      (gameReducer startState (.MAKE_MOVE ⟨0, 0⟩)).winner = none) ∧
    (gameReducer startState (.MAKE_MOVE ⟨0, 0⟩)).moveCount
      = startState.moveCount + 1 :=
  make_move_win_draw_resolution startState ⟨0, 0⟩ rfl rfl rfl

/-- Claim C8 counterexample: `SET_BOARD` is a reducer action that makes a cell
non-empty without any recorded move: dispatching it on the initial state
installs a board with one non-null cell while the move count stays 0. -/
theorem SET_BOARD_breaks_cell_count :
    (gameReducer initialState
      (.SET_BOARD (setCell createEmptyBoard 0 0 (some .X)))).moveCount = 0 ∧
    countNonNull (gameReducer initialState
      (.SET_BOARD (setCell createEmptyBoard 0 0 (some .X)))).board = 1 := by
  constructor
  · rfl
  · show countNonNull (setCell createEmptyBoard 0 0 (some .X)) = 1
    rw [countNonNull_setCell createEmptyBoard 0 0 .X (by decide) rfl,
      countNonNull_empty]

/-- Claim C8 (amended): over the actions the client actually dispatches during
play — `MAKE_MOVE` with an in-range payload, `SET_WINNER`, `RESET_GAME`,
`SET_STATUS`, but not `SET_BOARD` (which installs an arbitrary server board
without touching the move count) — every state reachable from the initial
state has exactly as many non-null cells as recorded moves, and no action
other than a successful move ever makes a cell non-empty. -/
theorem cell_count_matches_move_count :
    (∀ acts : List GameAction, (∀ a ∈ acts, okAction a) →
      countNonNull (acts.foldl gameReducer initialState).board
        = (acts.foldl gameReducer initialState).moveCount) ∧
    (∀ (s : GameState) (w : PlayerSymbol) (l : Option WinningLine)
        (st : GameStatus) (r c : Int),
      (gameReducer s (.SET_WINNER w l)).board r c = s.board r c ∧
      (gameReducer s (.SET_STATUS st)).board r c = s.board r c ∧
      (gameReducer s .RESET_GAME).board r c = none) :=
  ⟨fun acts hok => countNonNull_foldl acts initialState hok countNonNull_empty,
    fun _ _ _ _ _ _ => ⟨rfl, rfl, rfl⟩⟩

/-- Claim C8 witness: a first move at `(0,0)` followed by `SET_WINNER O` keeps
the count of non-null cells equal to the move count. -/
theorem cell_count_matches_move_count_witness :
    countNonNull (([GameAction.MAKE_MOVE ⟨0, 0⟩,
        GameAction.SET_WINNER .O none].foldl gameReducer initialState)).board
      = ([GameAction.MAKE_MOVE ⟨0, 0⟩,
        GameAction.SET_WINNER .O none].foldl gameReducer initialState).moveCount :=
  cell_count_matches_move_count.1
    [GameAction.MAKE_MOVE ⟨0, 0⟩, GameAction.SET_WINNER .O none]
    (by
      intro a ha
      simp only [List.mem_cons, List.not_mem_nil, or_false] at ha
      rcases ha with rfl | rfl
      · exact (by decide : inRange (0 : Int) (0 : Int))
      · exact trivial)

/-- Claim C9: every successful move flips `currentPlayer` to the opposing
mark, including a winning move: if the resulting state records a winner, that
winner is the mark that placed, while `currentPlayer` of the resulting state
is the winner's opponent. -/
theorem successful_move_flips_current_player (s : GameState) (p : Position)
    (h1 : s.status = .playing) (h2 : s.board p.row p.col = none)
    (h3 : s.winner = none) :
    (gameReducer s (.MAKE_MOVE p)).currentPlayer
      = (if s.currentPlayer = .X then .O else .X) ∧
    (∀ w, (gameReducer s (.MAKE_MOVE p)).winner = some w →
      w = s.currentPlayer ∧
      (gameReducer s (.MAKE_MOVE p)).currentPlayer
        = (if w = .X then .O else .X)) := by
  have hcp := gameReducer_MAKE_MOVE_currentPlayer s p ⟨h1, h2, h3⟩
  refine ⟨hcp, fun w hw => ?_⟩
  cases hl : checkWin (setCell s.board p.row p.col (some s.currentPlayer)) p
      s.currentPlayer with
  | none =>
    rw [gameReducer_MAKE_MOVE_ok_nowin s p h1 h2 h3 hl] at hw
    cases hw
  | some l =>
    rw [gameReducer_MAKE_MOVE_ok_win s p l h1 h2 h3 hl] at hw
    have hwcp : w = s.currentPlayer := by
      cases hw
      rfl
    refine ⟨hwcp, ?_⟩
    rw [hwcp, hcp]

/-- Claim C9 witness: from the state four `X` in a row away from a win, the
winning placement at `(0,4)` instantiates the flip property. -/
theorem successful_move_flips_current_player_witness :
    (gameReducer nearWinState (.MAKE_MOVE ⟨0, 4⟩)).currentPlayer
      = (if nearWinState.currentPlayer = .X then .O else .X) ∧
    (∀ w, (gameReducer nearWinState (.MAKE_MOVE ⟨0, 4⟩)).winner = some w →
      w = nearWinState.currentPlayer ∧
      (gameReducer nearWinState (.MAKE_MOVE ⟨0, 4⟩)).currentPlayer
        = (if w = .X then .O else .X)) :=
  successful_move_flips_current_player nearWinState ⟨0, 4⟩ rfl (by decide) rfl
